import Mathlib

/-
  Verification development for the mqtt_service repository.

  Shallow embedding of the parts of the code base that the checked
  properties talk about:

  - src/src/mqtt/worker.ts            (Business, BusinessReferenceManager)
  - src/src/mqtt/mqtt_service_worker.ts (MqttServiceWorker: watch / unwatch / message fan-out)
  - src/src/mqtt/service.ts           (shared-worker host: bootSharedWorker command handlers)
  - src/src/mqtt/mqtt_service.ts      (MqttService lifecycle state machine)
  - src/src/mqtt/transport.ts         (direct transport: error handler, end)
  - src/unnamed/part_000              (AxiosHttp: GET coalescing, verb methods)
  - src/unnamed/part_005              (MqttServiceState enum and cache-key constants)

  JavaScript Map objects are embedded as association lists with unique keys,
  updated in place (Map.set replaces the value of an existing key without
  moving it, Map.delete removes it).  JS numbers used as integers are
  embedded as Int, epoch milliseconds as Nat.
-/

/-- Association-list lookup; embeds JS Map#get (none embeds undefined). -/
def mapGet {κ β : Type} [DecidableEq κ] (m : List (κ × β)) (k : κ) : Option β :=
  match m with
  | [] => none
  | (k', v) :: rest => if k' = k then some v else mapGet rest k

/-- Association-list update; embeds JS Map#set: replace in place, else append. -/
def mapSet {κ β : Type} [DecidableEq κ] (m : List (κ × β)) (k : κ) (v : β) : List (κ × β) :=
  match m with
  | [] => [(k, v)]
  | (k', v') :: rest => if k' = k then (k, v) :: rest else (k', v') :: mapSet rest k v

/-- Association-list removal; embeds JS Map#delete. -/
def mapDelete {κ β : Type} [DecidableEq κ] (m : List (κ × β)) (k : κ) : List (κ × β) :=
  match m with
  | [] => []
  | (k', v') :: rest => if k' = k then mapDelete rest k else (k', v') :: mapDelete rest k

theorem mapGet_mapSet_self {κ β : Type} [DecidableEq κ] (m : List (κ × β)) (k : κ) (v : β) :
    mapGet (mapSet m k v) k = some v := by
  induction m with
  | nil => simp [mapGet, mapSet]
  | cons hd tl ih =>
      obtain ⟨k', v'⟩ := hd
      by_cases h : k' = k
      · simp [mapGet, mapSet, h]
      · simp [mapGet, mapSet, h, ih]

theorem mapGet_mapSet_ne {κ β : Type} [DecidableEq κ] (m : List (κ × β)) (k k' : κ) (v : β)
    (h : k ≠ k') : mapGet (mapSet m k v) k' = mapGet m k' := by
  induction m with
  | nil => simp [mapGet, mapSet, h]
  | cons hd tl ih =>
      obtain ⟨k0, v0⟩ := hd
      by_cases h0 : k0 = k
      · subst h0
        simp [mapGet, mapSet, h]
      · simp [mapGet, mapSet, h0, ih]

theorem mapGet_mapDelete_self {κ β : Type} [DecidableEq κ] (m : List (κ × β)) (k : κ) :
    mapGet (mapDelete m k) k = none := by
  induction m with
  | nil => simp [mapGet, mapDelete]
  | cons hd tl ih =>
      obtain ⟨k0, v0⟩ := hd
      by_cases h0 : k0 = k
      · simp [mapDelete, h0, ih]
      · simp [mapGet, mapDelete, h0, ih]

/-
  Business (src/src/mqtt/worker.ts lines 560 to 593, class Business).
  The bid a caller passes is number, string, null or undefined; the
  constructor normalizes undefined, null and the empty string to null.
-/

/-- Embeds the number-or-string values a caller may pass as bid. -/
inductive BidValue : Type where
  | str : String → BidValue
  | num : Int → BidValue
deriving DecidableEq, Repr

/-- Embeds the private state of class Business: a subject and the normalized bid. -/
structure Business : Type where
  subject : String
  bid : Option BidValue
deriving DecidableEq, Repr

/-- Embeds the Business constructor: the bid is normalized to null when it is
nil or an empty string (worker.ts line 575). -/
def Business.create (subject : String) (bid : Option BidValue) : Business :=
  { subject := subject
    bid :=
      match bid with
      | none => none
      | some (BidValue.str s) => if s.length = 0 then none else some (BidValue.str s)
      | some (BidValue.num n) => some (BidValue.num n) }

/-- Embeds the printed form of a bid inside the follow identity. -/
def BidValue.render : BidValue → String
  | BidValue.str s => s
  | BidValue.num n => toString n

/-- Embeds the Business id getter: subject, a vertical bar, then the bid or
the empty string when the bid is null. -/
def Business.id (b : Business) : String :=
  b.subject ++ "|" ++ (match b.bid with | none => "" | some v => v.render)

/-- Embeds Business#needsToLetApiKnowIAMInterested: true exactly when bid is not null. -/
def Business.needsToLetApiKnowIAMInterested (b : Business) : Bool :=
  b.bid.isSome

/-
  BusinessReferenceManager (src/src/mqtt/worker.ts lines 444 to 542).
  A Reference pairs a reference count with a version used for cross-tab
  conflict resolution.  The manager keeps an in-memory store and persists
  records in the cache under the key "mqttWatchedBiz_" followed by the
  follow id (CK_WATCHED_BUSINESS_PREFIX in src/unnamed/part_005 line 370).
-/

/-- Embeds the Reference record: reference count and version, JS numbers. -/
structure Reference : Type where
  reference : Int
  version : Int
deriving DecidableEq, Repr

/-- Embeds the cache-key constant named CK_WATCHED_BUSINESS_PREFIX in the source. -/
def CK_WATCHED_BUSINESS : String := "mqttWatchedBiz_"

/-- Embeds BusinessReferenceManager#__getCacheKey. -/
def BusinessReferenceManager.getCacheKey (followId : String) : String :=
  CK_WATCHED_BUSINESS ++ followId

/-- Embeds the state the reference manager touches: its in-memory store
(keyed by follow id) and the persistent cache (keyed by cache key). -/
structure BRMState : Type where
  store : List (String × Reference)
  cache : List (String × Reference)
deriving DecidableEq, Repr

/-- Embeds BusinessReferenceManager#collect: read the cached record (defaulting
to zero), read the in-memory record (defaulting to zero), keep the side with
the higher version (in-memory wins a tie), increment reference and version,
write the result to the cache and the store, return the new reference count. -/
def BusinessReferenceManager.collect (st : BRMState) (f : Business) : Int × BRMState :=
  let ck := BusinessReferenceManager.getCacheKey f.id
  let theirs := (mapGet st.cache ck).getD ⟨0, 0⟩
  let ours := (mapGet st.store f.id).getD ⟨0, 0⟩
  let eventually0 := if ours.version ≥ theirs.version then ours else theirs
  let eventually : Reference := ⟨eventually0.reference + 1, eventually0.version + 1⟩
  (eventually.reference,
    { store := mapSet st.store f.id eventually
      cache := mapSet st.cache ck eventually })

/-- Embeds BusinessReferenceManager#release: like collect but decrements the
reference with a floor of zero, and removes the cached record instead of
writing it back when the new reference count is zero. -/
def BusinessReferenceManager.release (st : BRMState) (f : Business) : Int × BRMState :=
  let ck := BusinessReferenceManager.getCacheKey f.id
  let theirs := (mapGet st.cache ck).getD ⟨0, 0⟩
  let ours := (mapGet st.store f.id).getD ⟨0, 0⟩
  let eventually0 := if ours.version ≥ theirs.version then ours else theirs
  let eventually : Reference := ⟨max (eventually0.reference - 1) 0, eventually0.version + 1⟩
  (eventually.reference,
    { store := mapSet st.store f.id eventually
      cache :=
        if eventually.reference = 0 then mapDelete st.cache ck
        else mapSet st.cache ck eventually })

/-- Embeds BusinessReferenceManager#getReference: the in-memory count only. -/
def BusinessReferenceManager.getReference (st : BRMState) (f : Business) : Int :=
  ((mapGet st.store f.id).getD ⟨0, 0⟩).reference

/-
  MqttServiceWorker (src/src/mqtt/mqtt_service_worker.ts).
  Worker state: the follows map, the api-awareness flag map, the latest
  message per follow, and the keys of the per-follow digest map (the digest
  closure installed under key f.id always stores the parsed payload under
  that same f.id, so the key list determines the digest map).  The type of
  parsed payloads and the external JSON parser (TextDecoder plus JSON.parse)
  are parameters of the embedding.
-/

/-- Embeds DRAFT_MQTT_SERVICE_WORKER_ID (mqtt_service_worker.ts line 41). -/
def DRAFT_MQTT_SERVICE_WORKER_ID : String := "69b153e9-241d-4467-bb20-f048f29843db"

/-- Embeds the TOPIC.CLIENT constant iot/v1/c (src/src/mqtt/constants.ts). -/
def TOPIC_CLIENT : String := "iot/v1/c"

/-- Embeds Transport#getTopic: the client topic root, the client id, the subject. -/
def Transport.getTopic (clientId subject : String) : String :=
  TOPIC_CLIENT ++ "/" ++ clientId ++ "/" ++ subject

/-- Embeds the topic string sent in interest-notification bodies:
TOPIC.CLIENT, the literal component uuid, and the subject, joined by slashes
(mqtt_service_worker.ts lines 301, 371 and 424). -/
def apiNotifyTopic (subject : String) : String :=
  TOPIC_CLIENT ++ "/" ++ "uuid" ++ "/" ++ subject

/-- Embeds the PBusiness body of the notify sub and unsub POSTs. -/
structure PBusiness : Type where
  bid : BidValue
  clientId : String
  topic : String
deriving DecidableEq, Repr

/-- Embeds an interest-notification HTTP POST issued by the worker:
either POST /v2/client/notify/sub or POST /v2/client/notify/unsub. -/
inductive NotifyCall : Type where
  | sub : PBusiness → NotifyCall
  | unsub : PBusiness → NotifyCall
deriving DecidableEq, Repr

/-- Embeds the private maps of a MqttServiceWorker instance together with its
id; the payload type of parsed messages is a parameter. -/
structure WorkerState (α : Type) : Type where
  id : String
  follows : List (String × Business)
  followApiAwareness : List (String × Bool)
  followMessages : List (String × α)
  followMessageDigest : List String

/-- Embeds the isGuest getter: the worker id equals the draft id. -/
def MqttServiceWorker.isGuest {α : Type} (w : WorkerState α) : Bool :=
  w.id = DRAFT_MQTT_SERVICE_WORKER_ID

/-- Embeds MqttServiceWorker#watch (mqtt_service_worker.ts lines 389 to 446).
Inputs are the transport client id, the worker state, the reference-manager
state and the business; outputs are the new worker state, the new
reference-manager state and the interest-notification POSTs issued.
Note that the source never writes true into the api-awareness map. -/
def MqttServiceWorker.watch {α : Type} (clientId : String) (w : WorkerState α)
    (brm : BRMState) (f : Business) : WorkerState α × BRMState × List NotifyCall :=
  if MqttServiceWorker.isGuest w then (w, brm, [])
  else
    let isWatching := (mapGet w.follows f.id).isSome
    let isApiAware := mapGet w.followApiAwareness f.id = some true
    match f.bid with
    | none =>
        -- needsToLetApiKnowIAMInterested is false
        if isWatching then (w, brm, [])
        else
          ({ w with
              follows := mapSet w.follows f.id f
              followMessageDigest :=
                if f.id ∈ w.followMessageDigest then w.followMessageDigest
                else w.followMessageDigest ++ [f.id] },
            brm, [])
    | some b =>
        if isWatching && isApiAware then (w, brm, [])
        else
          let collected := BusinessReferenceManager.collect brm f
          let calls :=
            if collected.1 = 1 ∧ ¬isApiAware then
              [NotifyCall.sub ⟨b, clientId, apiNotifyTopic f.subject⟩]
            else []
          ({ w with
              follows := mapSet w.follows f.id f
              followMessageDigest :=
                if f.id ∈ w.followMessageDigest then w.followMessageDigest
                else w.followMessageDigest ++ [f.id] },
            collected.2, calls)

/-- Embeds MqttServiceWorker#unwatch (mqtt_service_worker.ts lines 346 to 382):
release the reference when a bid is present, POST notify/unsub and clear the
api-awareness flag when the count reaches zero, then drop the follow, its
latest message and its digest. -/
def MqttServiceWorker.unwatch {α : Type} (clientId : String) (w : WorkerState α)
    (brm : BRMState) (f : Business) : WorkerState α × BRMState × List NotifyCall :=
  if MqttServiceWorker.isGuest w then (w, brm, [])
  else if ¬(mapGet w.follows f.id).isSome then (w, brm, [])
  else
    match f.bid with
    | none =>
        ({ w with
            follows := mapDelete w.follows f.id
            followMessages := mapDelete w.followMessages f.id
            followMessageDigest := w.followMessageDigest.filter (fun k => k ≠ f.id) },
          brm, [])
    | some b =>
        let released := BusinessReferenceManager.release brm f
        let aware :=
          if released.1 = 0 then mapSet w.followApiAwareness f.id false
          else w.followApiAwareness
        let calls :=
          if released.1 = 0 then
            [NotifyCall.unsub ⟨b, clientId, apiNotifyTopic f.subject⟩]
          else []
        ({ w with
            follows := mapDelete w.follows f.id
            followApiAwareness := aware
            followMessages := mapDelete w.followMessages f.id
            followMessageDigest := w.followMessageDigest.filter (fun k => k ≠ f.id) },
          released.2, calls)

/-- Embeds the isMyMessage test of the built-in Message listener
(mqtt_service_worker.ts lines 145 to 149): the follow exists and its subject
maps to the incoming topic. -/
def MqttServiceWorker.isMyMessage {α : Type} (clientId : String) (w : WorkerState α)
    (followId topic : String) : Bool :=
  match mapGet w.follows followId with
  | none => false
  | some f => Transport.getTopic clientId f.subject = topic

/-- Embeds the iteration of the built-in Message listener over the digest map:
the follow ids whose digest is invoked for an incoming topic, in map order. -/
def MqttServiceWorker.digestInvocations {α : Type} (clientId : String) (w : WorkerState α)
    (topic : String) : List String :=
  w.followMessageDigest.filter (fun followId => MqttServiceWorker.isMyMessage clientId w followId topic)

/-- Embeds the state change of one incoming transport message
(mqtt_service_worker.ts lines 109 to 156 plus the digest closure installed by
watch at lines 431 to 445): every invoked digest decodes the payload with the
external parser and stores the result under its follow id. -/
def MqttServiceWorker.onMessage {α : Type} (parse : String → α) (clientId : String)
    (w : WorkerState α) (topic payload : String) : WorkerState α :=
  { w with
    followMessages :=
      (MqttServiceWorker.digestInvocations clientId w topic).foldl
        (fun m followId => mapSet m followId (parse payload)) w.followMessages }

/-
  Shared-worker host (src/src/mqtt/service.ts, function bootSharedWorker,
  lines 975 to 1489).  The host owns two guard booleans, the lazily
  constructed MQTT client and the set of subscribed topic strings.  Its state
  is embedded below; the per-command handlers become functions from host
  state to host state plus the externally visible effects (the unicast sent
  to the requesting port, whether mqtt.connect was called, which topics were
  passed to the broker subscribe or unsubscribe call).
-/

/-- Embeds the connack packet of the MQTT client. -/
structure Connack : Type where
  cmd : String
  returnCode : Int
  reasonCode : Int
  sessionPresent : Bool
deriving DecidableEq, Repr

/-- Embeds the synthetic connack the host unicasts to a late-joining port
(service.ts lines 1259 to 1272). -/
def syntheticConnack : Connack :=
  { cmd := "connack", returnCode := 0, reasonCode := 0, sessionPresent := false }

/-- Embeds the mutable state of the shared-worker host. -/
structure SharedWorkerHostState : Type where
  isSettingUpMqttClient : Bool
  isMqttClientSettled : Bool
  hasMqttClient : Bool
  subscribedTopics : List String
deriving DecidableEq, Repr

/-- Embeds the WorkerAction.MqttConnect handler (service.ts lines 1238 to
1291).  Result: the new host state, the synthetic connack unicast to the
requesting port if any, and whether mqtt.connect was called to construct a
new client. -/
def commandMqttConnect (st : SharedWorkerHostState) :
    SharedWorkerHostState × Option Connack × Bool :=
  if st.isSettingUpMqttClient then (st, none, false)
  else if st.isMqttClientSettled then (st, some syntheticConnack, false)
  else
    let st1 := { st with isSettingUpMqttClient := true }
    let st2 := { st1 with hasMqttClient := true }
    ({ st2 with isSettingUpMqttClient := false, isMqttClientSettled := true }, none, true)

/-- Embeds the string-or-array topic argument of subscribe and unsubscribe. -/
inductive TopicArg : Type where
  | one : String → TopicArg
  | many : List String → TopicArg
deriving DecidableEq, Repr

/-- Embeds the list of topics named by a topic argument. -/
def TopicArg.topics : TopicArg → List String
  | TopicArg.one t => [t]
  | TopicArg.many ts => ts

/-- Embeds filterUnsubscribedTopics (service.ts lines 1062 to 1072). -/
def filterUnsubscribedTopics (subscribed : List String) : TopicArg → List String
  | TopicArg.one t => if t ∈ subscribed then [] else [t]
  | TopicArg.many ts => ts.filter (fun t => t ∉ subscribed)

/-- Embeds filterSubscribedTopics (service.ts lines 1045 to 1055). -/
def filterSubscribedTopics (subscribed : List String) : TopicArg → List String
  | TopicArg.one t => if t ∈ subscribed then [t] else []
  | TopicArg.many ts => ts.filter (fun t => t ∈ subscribed)

/-- Embeds addSubscribedTopics (service.ts lines 1024 to 1028): Set#add for
each topic in order. -/
def addSubscribedTopics (subscribed : List String) (ts : List String) : List String :=
  ts.foldl (fun s t => if t ∈ s then s else s ++ [t]) subscribed

/-- Embeds removeSubscribedTopics (service.ts lines 1034 to 1038). -/
def removeSubscribedTopics (subscribed : List String) (ts : List String) : List String :=
  subscribed.filter (fun t => t ∉ ts)

/-- Embeds the WorkerAction.MqttSubscribe handler (service.ts lines 1365 to
1427) with the broker acknowledgement outcome as a parameter.  Result: the
new host state, the topic list passed to the broker subscribe call, and
whether a broker subscribe was issued at all (the handler returns early with
an empty broadcast when every requested topic is already subscribed). -/
def commandMqttSubscribe (st : SharedWorkerHostState) (arg : TopicArg)
    (ackSuccess : Bool) : SharedWorkerHostState × List String × Bool :=
  if st.hasMqttClient = false then (st, [], false)
  else
    let ts := filterUnsubscribedTopics st.subscribedTopics arg
    if ts.isEmpty then (st, [], false)
    else if ackSuccess then
      ({ st with subscribedTopics := addSubscribedTopics st.subscribedTopics ts }, ts, true)
    else (st, ts, true)

/-- Embeds the WorkerAction.MqttUnsubscribe handler (service.ts lines 1429 to
1445).  Result: the new host state and the topic list passed to the real
broker unsubscribe call. -/
def commandMqttUnsubscribe (st : SharedWorkerHostState) (arg : TopicArg) :
    SharedWorkerHostState × List String :=
  if st.hasMqttClient = false then (st, [])
  else
    let ts := filterSubscribedTopics st.subscribedTopics arg
    ({ st with subscribedTopics := removeSubscribedTopics st.subscribedTopics ts }, ts)

/-
  MqttService lifecycle (src/src/mqtt/mqtt_service.ts) over the
  MqttServiceState enum of src/unnamed/part_005 lines 190 to 198.  The
  numeric order of the enum members drives the guards, which compare states
  with the less-than operators of JS.  Each method becomes a function on the
  service state giving the state after the method has run (forceQuit sets
  Created inside the end callback of the shared transport, so whether that
  callback ran is a parameter).
-/

/-- Embeds the MqttServiceState enum in declaration order. -/
inductive MqttServiceState : Type where
  | Created
  | Initializing
  | Resuming
  | Suspending
  | Stopping
  | Suspended
  | Running
deriving DecidableEq, Repr

/-- Embeds the numeric value of an enum member. -/
def MqttServiceState.toNat : MqttServiceState → Nat
  | MqttServiceState.Created => 0
  | MqttServiceState.Initializing => 1
  | MqttServiceState.Resuming => 2
  | MqttServiceState.Suspending => 3
  | MqttServiceState.Stopping => 4
  | MqttServiceState.Suspended => 5
  | MqttServiceState.Running => 6

/-- Embeds the synchronous state effect of MqttService#init (mqtt_service.ts
lines 733 to 764): guests return, non-Created states return, otherwise the
state becomes Initializing (Running is reached later by the built-in Connect
listener). -/
def MqttService.init (isGuest : Bool) (s : MqttServiceState) : MqttServiceState :=
  if isGuest then s
  else if s ≠ MqttServiceState.Created then s
  else MqttServiceState.Initializing

/-- Embeds the state effect of MqttService#quit (mqtt_service.ts lines 579 to
599): below Running return, otherwise Stopping during teardown and Created
when done. -/
def MqttService.quit (s : MqttServiceState) : MqttServiceState :=
  if s.toNat < MqttServiceState.Running.toNat then s
  else MqttServiceState.Created

/-- Embeds the state effect of MqttService#forceQuit (mqtt_service.ts lines
774 to 797): below Running return; otherwise Stopping, and Created once the
end callback of the shared transport has run. -/
def MqttService.forceQuit (endCallbackRan : Bool) (s : MqttServiceState) : MqttServiceState :=
  if s.toNat < MqttServiceState.Running.toNat then s
  else if endCallbackRan then MqttServiceState.Created
  else MqttServiceState.Stopping

/-- Embeds the state effect of MqttService#suspend (mqtt_service.ts lines 854
to 869): at or below Suspended return, otherwise Suspending then Suspended. -/
def MqttService.suspend (s : MqttServiceState) : MqttServiceState :=
  if s.toNat ≤ MqttServiceState.Suspended.toNat then s
  else MqttServiceState.Suspended

/-- Embeds the state effect of MqttService#resume (mqtt_service.ts lines 802
to 819): below Suspended return, Running returns, otherwise Resuming then
Running. -/
def MqttService.resume (s : MqttServiceState) : MqttServiceState :=
  if s.toNat < MqttServiceState.Suspended.toNat then s
  else if s = MqttServiceState.Running then s
  else MqttServiceState.Running

/-
  Direct transport (src/src/mqtt/transport.ts, class Transport).  The pieces
  the checked properties need: the event set, the listener table, the end
  method guards and the error handler installed by connect (lines 120 to
  125), which dispatches the received error on the Connect event bucket,
  then calls end and dispose.  Listeners are embedded as opaque tokens.
-/

/-- Embeds the MqttEvent enum (src/src/mqtt/constants.ts lines 42 to 56). -/
inductive MqttEvent : Type where
  | Connect
  | Reconnect
  | Close
  | Disconnect
  | Offline
  | Error
  | End
  | Message
  | PacketSend
  | PacketReceive
deriving DecidableEq, Repr

/-- Embeds GUEST_CLIENT_ID (src/src/mqtt/constants.ts line 37). -/
def GUEST_CLIENT_ID : String := "e9d4012e-3156-4f7c-8d73-022989fb2634"

/-- Embeds the state of a direct Transport instance: the client id of its
connection options, whether its MQTT client exists, and the listener table. -/
structure TransportState : Type where
  clientId : String
  hasMqttClient : Bool
  listeners : MqttEvent → List Nat

/-- Embeds the Transport isGuest getter (transport.ts lines 68 to 70). -/
def Transport.isGuest (t : TransportState) : Bool :=
  t.clientId = GUEST_CLIENT_ID

/-- Embeds the guards of Transport#end (transport.ts lines 147 to 157):
true exactly when the underlying MQTT client end method is invoked. -/
def Transport.endCallsClientEnd (t : TransportState) : Bool :=
  if ¬t.hasMqttClient then false
  else if Transport.isGuest t then false
  else true

/-- Embeds the error handler that Transport#connect installs on the client
(transport.ts lines 120 to 125).  It calls dispatchEvent with the event
MqttEvent.Connect and the error as argument, then this.end() and
this.dispose().  Result: the listener invocations as pairs of the event
bucket they were registered under and the listener token, the transport
state afterwards (dispose clears every listener), and whether the client
end method was called. -/
def Transport.onClientError (t : TransportState) :
    List (MqttEvent × Nat) × TransportState × Bool :=
  let invocations := (t.listeners MqttEvent.Connect).map (fun tok => (MqttEvent.Connect, tok))
  let endCalled := Transport.endCallsClientEnd t
  (invocations, { t with listeners := fun _ => [] }, endCalled)

/-
  AxiosHttp (src/unnamed/part_000).  The GET-coalescing core of __call
  (lines 898 to 928) keyed by the hash of the full request: the md5 of the
  JSON encoding of the method, url, parameters and extra config.  Equal
  requests produce equal hashes, and the embedding keys the cache by the
  request value itself.  Parameter and option records are embedded as
  string-to-string association lists, promises as numeric identities minted
  in order, and Date.now() as a Nat argument.  The deprecated demo branch is
  inactive (getDemoModePort yields nil outside demo deployments).
-/

/-- Embeds the request quadruple that __hash serializes (part_000 lines 483
to 496). -/
structure HttpRequest : Type where
  method : String
  url : String
  parameters : List (String × String)
  extraConfig : List (String × String)
deriving DecidableEq, Repr

/-- Embeds MAX_WAIT_MS (part_000 line 274). -/
def MAX_WAIT_MS : Nat := 500

/-- Embeds __isHTTPGetMethod (part_000 lines 498 to 500): the method string
lower-cased (character by character, as toLowerCase does on these ASCII
method names) compared with the literal get. -/
def isHTTPGetMethod (method : String) : Bool :=
  String.mk (method.data.map Char.toLower) = "get"

/-- Embeds one entry of the in-flight request cache: creation time and the
identity of the cached promise. -/
structure HttpCacheEntry : Type where
  createdAt : Nat
  promiseId : Nat
deriving DecidableEq, Repr

/-- Embeds the state of an AxiosHttp instance: the in-flight request cache
and the next fresh promise identity. -/
structure AxiosHttpState : Type where
  httpRequestCache : List (HttpRequest × HttpCacheEntry)
  nextPromiseId : Nat
deriving DecidableEq, Repr

/-- Embeds AxiosHttp#__call (part_000 lines 680 to 928, elevator policy) and
AxiosHttp#__cacheRequest (lines 668 to 678).  Result: the identity of the
promise the caller receives, whether a network request was issued, and the
new state.  Non-GET methods bypass the cache; a cached GET entry no older
than MAX_WAIT_MS is returned as is; otherwise a fresh request is issued and
cached with the current time. -/
def AxiosHttp.call (st : AxiosHttpState) (now : Nat) (req : HttpRequest) :
    Nat × Bool × AxiosHttpState :=
  let needsCache := isHTTPGetMethod req.method
  if ¬needsCache then
    (st.nextPromiseId, true, { st with nextPromiseId := st.nextPromiseId + 1 })
  else
    match mapGet st.httpRequestCache req with
    | some entry =>
        if now - entry.createdAt ≤ MAX_WAIT_MS then (entry.promiseId, false, st)
        else
          (st.nextPromiseId, true,
            { httpRequestCache :=
                mapSet st.httpRequestCache req ⟨now, st.nextPromiseId⟩
              nextPromiseId := st.nextPromiseId + 1 })
    | none =>
        (st.nextPromiseId, true,
          { httpRequestCache :=
              mapSet st.httpRequestCache req ⟨now, st.nextPromiseId⟩
            nextPromiseId := st.nextPromiseId + 1 })

/-- Embeds AxiosHttp#get (part_000 lines 930 to 936). -/
def AxiosHttp.get (st : AxiosHttpState) (now : Nat) (url : String)
    (parameters extraConfig : List (String × String)) : Nat × Bool × AxiosHttpState :=
  AxiosHttp.call st now { method := "get", url := url, parameters := parameters, extraConfig := extraConfig }

/-- Embeds AxiosHttp#patch (part_000 lines 946 to 952).  The source forwards
to __call with the literal method string get, not patch. -/
def AxiosHttp.patch (st : AxiosHttpState) (now : Nat) (url : String)
    (parameters extraConfig : List (String × String)) : Nat × Bool × AxiosHttpState :=
  AxiosHttp.call st now { method := "get", url := url, parameters := parameters, extraConfig := extraConfig }

/-- Embeds AxiosHttp#post (part_000 lines 954 to 960). -/
def AxiosHttp.post (st : AxiosHttpState) (now : Nat) (url : String)
    (parameters extraConfig : List (String × String)) : Nat × Bool × AxiosHttpState :=
  AxiosHttp.call st now { method := "post", url := url, parameters := parameters, extraConfig := extraConfig }

/-
  Claims.
-/

/-- Claim C2: every collect or release reads the persisted record for the
identity of the business (defaulting to a zero record), keeps whichever of
the persisted and in-memory copies has the higher version (the in-memory
copy on a tie), applies reference plus one for collect or reference minus
one floored at zero for release together with version plus one, writes the
result back to the cache, deleting the record when the new reference count
is zero, updates the in-memory copy, and returns the new reference count.
The two nonnegativity hypotheses are the reference-record invariant of the
data model; under them the new count after collect is positive, so the
delete-on-zero case arises only in release. -/
theorem claim_C2_reference_manager_collect_release
    (st : BRMState) (f : Business) (theirs ours merged : Reference)
    (hT : (mapGet st.cache (BusinessReferenceManager.getCacheKey f.id)).getD ⟨0, 0⟩ = theirs)
    (hO : (mapGet st.store f.id).getD ⟨0, 0⟩ = ours)
    (hM : merged = if ours.version ≥ theirs.version then ours else theirs)
    (hT0 : 0 ≤ theirs.reference) (hO0 : 0 ≤ ours.reference) :
    (BusinessReferenceManager.collect st f).1 = merged.reference + 1 ∧
    merged.reference + 1 ≠ 0 ∧
    mapGet (BusinessReferenceManager.collect st f).2.cache
        (BusinessReferenceManager.getCacheKey f.id)
      = some ⟨merged.reference + 1, merged.version + 1⟩ ∧
    mapGet (BusinessReferenceManager.collect st f).2.store f.id
      = some ⟨merged.reference + 1, merged.version + 1⟩ ∧
    (BusinessReferenceManager.release st f).1 = max (merged.reference - 1) 0 ∧
    mapGet (BusinessReferenceManager.release st f).2.store f.id
      = some ⟨max (merged.reference - 1) 0, merged.version + 1⟩ ∧
    (max (merged.reference - 1) 0 = 0 →
      mapGet (BusinessReferenceManager.release st f).2.cache
          (BusinessReferenceManager.getCacheKey f.id) = none) ∧
    (max (merged.reference - 1) 0 ≠ 0 →
      mapGet (BusinessReferenceManager.release st f).2.cache
          (BusinessReferenceManager.getCacheKey f.id)
        = some ⟨max (merged.reference - 1) 0, merged.version + 1⟩) := by
  have hmerged0 : 0 ≤ merged.reference := by
    rcases hM with rfl
    split <;> assumption
  refine ⟨?_, ?_, ?_, ?_, ?_, ?_, ?_, ?_⟩
  · simp [BusinessReferenceManager.collect, hT, hO, ← hM]
  · omega
  · simp [BusinessReferenceManager.collect, hT, hO, ← hM, mapGet_mapSet_self]
  · simp [BusinessReferenceManager.collect, hT, hO, ← hM, mapGet_mapSet_self]
  · simp [BusinessReferenceManager.release, hT, hO, ← hM]
  · simp [BusinessReferenceManager.release, hT, hO, ← hM, mapGet_mapSet_self]
  · intro hz
    simp [BusinessReferenceManager.release, hT, hO, ← hM, hz, mapGet_mapDelete_self]
  · intro hz
    simp [BusinessReferenceManager.release, hT, hO, ← hM, hz, mapGet_mapSet_self]

/-- Witness for claim C2 on a concrete state: one business with bid B1, a
persisted record with reference two and version five against an in-memory
record with reference one and version three (the persisted side wins). -/
theorem claim_C2_reference_manager_collect_release_witness :
    (BusinessReferenceManager.collect
        ⟨[("log/detail|B1", ⟨1, 3⟩)], [("mqttWatchedBiz_log/detail|B1", ⟨2, 5⟩)]⟩
        (Business.create "log/detail" (some (BidValue.str "B1")))).1 = 3 := by
  have h := claim_C2_reference_manager_collect_release
    ⟨[("log/detail|B1", ⟨1, 3⟩)], [("mqttWatchedBiz_log/detail|B1", ⟨2, 5⟩)]⟩
    (Business.create "log/detail" (some (BidValue.str "B1")))
    ⟨2, 5⟩ ⟨1, 3⟩ ⟨2, 5⟩ (by decide) (by decide) (by decide) (by decide) (by decide)
  exact h.1

/-- Claim C8: every lifecycle operation invoked in a state where its
transition is illegal leaves the service state unchanged: init acts only in
Created (for a non-guest service), quit, forceQuit and suspend act only in
Running, resume acts only in Suspended; and from Running, suspend ends in
Suspended and a subsequent resume restores Running. -/
theorem claim_C8_lifecycle_illegal_transitions_are_noops :
    ∀ (s : MqttServiceState) (g cb : Bool),
      (s ≠ MqttServiceState.Created → MqttService.init g s = s) ∧
      (s ≠ MqttServiceState.Running → MqttService.quit s = s) ∧
      (s ≠ MqttServiceState.Running → MqttService.forceQuit cb s = s) ∧
      (s ≠ MqttServiceState.Running → MqttService.suspend s = s) ∧
      (s ≠ MqttServiceState.Suspended → MqttService.resume s = s) ∧
      MqttService.suspend MqttServiceState.Running = MqttServiceState.Suspended ∧
      MqttService.resume (MqttService.suspend MqttServiceState.Running)
        = MqttServiceState.Running := by
  intro s g cb
  cases s <;> cases g <;> cases cb <;> exact (by decide)

/-- Witness for claim C8: the operations are no-ops in concrete illegal
states, and suspend then resume from Running restores Running. -/
theorem claim_C8_lifecycle_illegal_transitions_are_noops_witness :
    MqttService.init false MqttServiceState.Running = MqttServiceState.Running ∧
    MqttService.quit MqttServiceState.Suspended = MqttServiceState.Suspended ∧
    MqttService.forceQuit true MqttServiceState.Created = MqttServiceState.Created ∧
    MqttService.suspend MqttServiceState.Initializing = MqttServiceState.Initializing ∧
    MqttService.resume MqttServiceState.Stopping = MqttServiceState.Stopping ∧
    MqttService.resume (MqttService.suspend MqttServiceState.Running)
      = MqttServiceState.Running := by
  refine ⟨?_, ?_, ?_, ?_, ?_, ?_⟩
  · exact (claim_C8_lifecycle_illegal_transitions_are_noops
      MqttServiceState.Running false true).1 (by decide)
  · exact (claim_C8_lifecycle_illegal_transitions_are_noops
      MqttServiceState.Suspended false true).2.1 (by decide)
  · exact (claim_C8_lifecycle_illegal_transitions_are_noops
      MqttServiceState.Created false true).2.2.1 (by decide)
  · exact (claim_C8_lifecycle_illegal_transitions_are_noops
      MqttServiceState.Initializing false true).2.2.2.1 (by decide)
  · exact (claim_C8_lifecycle_illegal_transitions_are_noops
      MqttServiceState.Stopping false true).2.2.2.2.1 (by decide)
  · exact (claim_C8_lifecycle_illegal_transitions_are_noops
      MqttServiceState.Running false true).2.2.2.2.2.2

/-- Claim C6: for every MqttConnect command at the shared-worker host: while
the client is being set up the command is a no-op; when the client is
already settled the host unicasts a synthetic MqttConnect feedback carrying
a connack with return code zero, reason code zero and session-present false
to the requesting port only, without constructing a new client; otherwise it
constructs the single MQTT client and flips the settled flag. -/
theorem claim_C6_shared_worker_connect_races :
    ∀ st : SharedWorkerHostState,
      (st.isSettingUpMqttClient = true → commandMqttConnect st = (st, none, false)) ∧
      (st.isSettingUpMqttClient = false → st.isMqttClientSettled = true →
        commandMqttConnect st = (st, some ⟨"connack", 0, 0, false⟩, false)) ∧
      (st.isSettingUpMqttClient = false → st.isMqttClientSettled = false →
        (commandMqttConnect st).2.2 = true ∧
        (commandMqttConnect st).2.1 = none ∧
        (commandMqttConnect st).1.isMqttClientSettled = true ∧
        (commandMqttConnect st).1.hasMqttClient = true ∧
        (commandMqttConnect st).1.isSettingUpMqttClient = false ∧
        (commandMqttConnect st).1.subscribedTopics = st.subscribedTopics) := by
  intro st
  refine ⟨?_, ?_, ?_⟩
  · intro h
    simp [commandMqttConnect, h]
  · intro h1 h2
    simp [commandMqttConnect, h1, h2, syntheticConnack]
  · intro h1 h2
    simp [commandMqttConnect, h1, h2]

/-- Witness for claim C6 at three concrete host states, one per guard: a
setting-up host, a settled host, and a fresh host. -/
theorem claim_C6_shared_worker_connect_races_witness :
    commandMqttConnect ⟨true, false, false, []⟩ = (⟨true, false, false, []⟩, none, false) ∧
    commandMqttConnect ⟨false, true, true, []⟩
      = (⟨false, true, true, []⟩, some ⟨"connack", 0, 0, false⟩, false) ∧
    (commandMqttConnect ⟨false, false, false, []⟩).2.2 = true := by
  refine ⟨?_, ?_, ?_⟩
  · exact (claim_C6_shared_worker_connect_races ⟨true, false, false, []⟩).1 rfl
  · exact (claim_C6_shared_worker_connect_races ⟨false, true, true, []⟩).2.1 rfl rfl
  · exact ((claim_C6_shared_worker_connect_races ⟨false, false, false, []⟩).2.2 rfl rfl).1

theorem mem_addSubscribedTopics (ts : List String) (s : List String) (a : String) :
    a ∈ addSubscribedTopics s ts ↔ a ∈ s ∨ a ∈ ts := by
  induction ts generalizing s with
  | nil => simp [addSubscribedTopics]
  | cons t rest ih =>
      have hstep : addSubscribedTopics s (t :: rest)
          = addSubscribedTopics (if t ∈ s then s else s ++ [t]) rest := rfl
      rw [hstep, ih]
      by_cases h : t ∈ s
      · rw [if_pos h]
        simp only [List.mem_cons]
        constructor
        · rintro (ha | ha)
          · exact Or.inl ha
          · exact Or.inr (Or.inr ha)
        · rintro (ha | rfl | ha)
          · exact Or.inl ha
          · exact Or.inl h
          · exact Or.inr ha
      · rw [if_neg h]
        simp only [List.mem_append, List.mem_cons, List.mem_singleton,
          List.not_mem_nil, or_false]
        constructor
        · rintro ((ha | ha) | ha)
          · exact Or.inl ha
          · exact Or.inr (Or.inl ha)
          · exact Or.inr (Or.inr ha)
        · rintro (ha | ha | ha)
          · exact Or.inl (Or.inl ha)
          · exact Or.inl (Or.inr ha)
          · exact Or.inr ha

/-- Claim C7: in shared-worker mode a subscribe command passes to the broker
exactly the requested topics that are not already in the subscribed set, the
set grows by those topics only when the broker acknowledges success, a
second subscribe of an already acknowledged topic issues no broker
subscribe, and an unsubscribe command passes to the real broker unsubscribe
exactly the requested topics currently in the set and removes them from it. -/
theorem claim_C7_subscribe_dedup (st : SharedWorkerHostState) (arg : TopicArg)
    (ack : Bool) (hc : st.hasMqttClient = true) :
    (∀ t, t ∈ (commandMqttSubscribe st arg ack).2.1 ↔
        (t ∈ arg.topics ∧ t ∉ st.subscribedTopics)) ∧
    (ack = false → (commandMqttSubscribe st arg ack).1 = st) ∧
    (ack = true → ∀ t, t ∈ (commandMqttSubscribe st arg ack).1.subscribedTopics ↔
        (t ∈ st.subscribedTopics ∨ t ∈ (commandMqttSubscribe st arg ack).2.1)) ∧
    (∀ t ack2, t ∉ st.subscribedTopics →
        (commandMqttSubscribe st (TopicArg.one t) true).2.2 = true ∧
        (commandMqttSubscribe (commandMqttSubscribe st (TopicArg.one t) true).1
            (TopicArg.one t) ack2).2.2 = false) ∧
    (∀ t, t ∈ (commandMqttUnsubscribe st arg).2 ↔
        (t ∈ arg.topics ∧ t ∈ st.subscribedTopics)) ∧
    (∀ t, t ∈ (commandMqttUnsubscribe st arg).1.subscribedTopics ↔
        (t ∈ st.subscribedTopics ∧ t ∉ (commandMqttUnsubscribe st arg).2)) := by
  have hmemfilter : ∀ t, t ∈ filterUnsubscribedTopics st.subscribedTopics arg ↔
      (t ∈ arg.topics ∧ t ∉ st.subscribedTopics) := by
    intro t
    cases arg with
    | one t0 =>
        by_cases h : t0 ∈ st.subscribedTopics <;>
          simp_all [filterUnsubscribedTopics, TopicArg.topics]
    | many ts0 => simp [filterUnsubscribedTopics, TopicArg.topics]
  have hpassed : (commandMqttSubscribe st arg ack).2.1
      = filterUnsubscribedTopics st.subscribedTopics arg := by
    simp only [commandMqttSubscribe, hc, Bool.true_eq_false, if_false]
    by_cases hempty : (filterUnsubscribedTopics st.subscribedTopics arg).isEmpty
    · rw [if_pos hempty]
      exact (List.isEmpty_iff.mp hempty).symm
    · rw [if_neg hempty]
      by_cases hack : ack = true <;> simp [hack]
  refine ⟨?_, ?_, ?_, ?_, ?_, ?_⟩
  · intro t
    rw [hpassed]
    exact hmemfilter t
  · intro hack
    subst hack
    simp only [commandMqttSubscribe, hc, Bool.true_eq_false, if_false,
      Bool.false_eq_true]
    split
    · rfl
    · simp
  · intro hack t
    subst hack
    rw [hpassed]
    simp only [commandMqttSubscribe, hc, Bool.true_eq_false, if_false]
    by_cases hempty : (filterUnsubscribedTopics st.subscribedTopics arg).isEmpty
    · rw [if_pos hempty]
      rw [List.isEmpty_iff.mp hempty]
      simp
    · rw [if_neg hempty, if_pos trivial]
      exact mem_addSubscribedTopics _ _ t
  · intro t ack2 hnot
    have h1 : (commandMqttSubscribe st (TopicArg.one t) true)
        = ({ st with subscribedTopics :=
              addSubscribedTopics st.subscribedTopics [t] }, [t], true) := by
      simp [commandMqttSubscribe, hc, filterUnsubscribedTopics, hnot]
    refine ⟨by rw [h1], ?_⟩
    rw [h1]
    have hmem : t ∈ addSubscribedTopics st.subscribedTopics [t] := by
      rw [mem_addSubscribedTopics]
      exact Or.inr (List.mem_singleton.mpr rfl)
    simp [commandMqttSubscribe, hc, filterUnsubscribedTopics, hmem]
  · intro t
    cases arg with
    | one t0 =>
        by_cases h : t0 ∈ st.subscribedTopics <;>
          simp_all [commandMqttUnsubscribe, hc, filterSubscribedTopics, TopicArg.topics]
    | many ts0 =>
        simp [commandMqttUnsubscribe, hc, filterSubscribedTopics, TopicArg.topics]
  · intro t
    simp [commandMqttUnsubscribe, hc, removeSubscribedTopics]

/-- Witness for claim C7 on a concrete host: a settled host subscribed to
topic a receives a subscribe for topics a and b and an unsubscribe for a. -/
theorem claim_C7_subscribe_dedup_witness :
    "b" ∈ (commandMqttSubscribe ⟨false, true, true, ["a"]⟩
        (TopicArg.many ["a", "b"]) true).2.1 ∧
    "a" ∈ (commandMqttUnsubscribe ⟨false, true, true, ["a"]⟩ (TopicArg.many ["a"])).2 := by
  constructor
  · have h := (claim_C7_subscribe_dedup ⟨false, true, true, ["a"]⟩
      (TopicArg.many ["a", "b"]) true rfl).1 "b"
    exact h.mpr (by decide)
  · have h := (claim_C7_subscribe_dedup ⟨false, true, true, ["a"]⟩
      (TopicArg.many ["a"]) true rfl).2.2.2.2.1 "a"
    exact h.mpr (by decide)

/-- Claim C4: two GET calls with the same method, url, parameters and extra
config, the second issued no more than MAX_WAIT_MS after the first cached
its entry, resolve to the very same promise and only the first issues a
network request; an identical GET after the window issues a new one. -/
theorem claim_C4_get_coalescing (st : AxiosHttpState) (t1 t2 : Nat) (req : HttpRequest)
    (hget : isHTTPGetMethod req.method = true)
    (hmiss : mapGet st.httpRequestCache req = none) :
    (AxiosHttp.call st t1 req).2.1 = true ∧
    (t2 - t1 ≤ MAX_WAIT_MS →
      (AxiosHttp.call (AxiosHttp.call st t1 req).2.2 t2 req).1
          = (AxiosHttp.call st t1 req).1 ∧
      (AxiosHttp.call (AxiosHttp.call st t1 req).2.2 t2 req).2.1 = false ∧
      (AxiosHttp.call (AxiosHttp.call st t1 req).2.2 t2 req).2.2
          = (AxiosHttp.call st t1 req).2.2) ∧
    (MAX_WAIT_MS < t2 - t1 →
      (AxiosHttp.call (AxiosHttp.call st t1 req).2.2 t2 req).2.1 = true ∧
      (AxiosHttp.call (AxiosHttp.call st t1 req).2.2 t2 req).1
          ≠ (AxiosHttp.call st t1 req).1) := by
  have h1 : AxiosHttp.call st t1 req
      = (st.nextPromiseId, true,
          ⟨mapSet st.httpRequestCache req ⟨t1, st.nextPromiseId⟩, st.nextPromiseId + 1⟩) := by
    simp [AxiosHttp.call, hget, hmiss]
  have hhit : mapGet (mapSet st.httpRequestCache req ⟨t1, st.nextPromiseId⟩) req
      = some ⟨t1, st.nextPromiseId⟩ := mapGet_mapSet_self _ _ _
  refine ⟨by rw [h1], ?_, ?_⟩
  · intro hwin
    rw [h1]
    simp [AxiosHttp.call, hget, hhit, hwin]
  · intro hlate
    rw [h1]
    have hnotwin : ¬(t2 - t1 ≤ MAX_WAIT_MS) := by omega
    constructor
    · simp [AxiosHttp.call, hget, hhit, hnotwin]
    · simp only [AxiosHttp.call, hget, hhit]
      simp [hnotwin]

/-- Witness for claim C4: a GET at millisecond 1000 followed by the same GET
at 1100 is served from the cache, while the same GET at 1600 issues a new
network request. -/
theorem claim_C4_get_coalescing_witness :
    (AxiosHttp.call
        (AxiosHttp.call ⟨[], 0⟩ 1000 ⟨"get", "/v2/a", [("x", "1")], []⟩).2.2
        1100 ⟨"get", "/v2/a", [("x", "1")], []⟩).2.1 = false ∧
    (AxiosHttp.call
        (AxiosHttp.call ⟨[], 0⟩ 1000 ⟨"get", "/v2/a", [("x", "1")], []⟩).2.2
        1600 ⟨"get", "/v2/a", [("x", "1")], []⟩).2.1 = true := by
  constructor
  · exact ((claim_C4_get_coalescing ⟨[], 0⟩ 1000 1100 ⟨"get", "/v2/a", [("x", "1")], []⟩
      (by decide) (by decide)).2.1 (by decide)).2.1
  · exact ((claim_C4_get_coalescing ⟨[], 0⟩ 1000 1600 ⟨"get", "/v2/a", [("x", "1")], []⟩
      (by decide) (by decide)).2.2 (by decide)).1

/-- Claim C5: evaluation of the code at the failing input.  The patch method
forwards to the private call with the literal method string get (part_000
line 951), so a patch request goes out as a GET, is stored in the in-flight
GET cache under a request whose method field is get, and a second identical
patch 100 milliseconds later is served from that cache without a network
request instead of bypassing it with the PATCH method. -/
theorem claim_C5_patch_goes_out_as_cached_get :
    (AxiosHttp.patch ⟨[], 0⟩ 1000 "/v2/x" [("a", "1")] []).2.1 = true ∧
    mapGet (AxiosHttp.patch ⟨[], 0⟩ 1000 "/v2/x" [("a", "1")] []).2.2.httpRequestCache
        ⟨"get", "/v2/x", [("a", "1")], []⟩ = some ⟨1000, 0⟩ ∧
    (AxiosHttp.patch (AxiosHttp.patch ⟨[], 0⟩ 1000 "/v2/x" [("a", "1")] []).2.2
        1100 "/v2/x" [("a", "1")] []).2.1 = false ∧
    (AxiosHttp.patch (AxiosHttp.patch ⟨[], 0⟩ 1000 "/v2/x" [("a", "1")] []).2.2
        1100 "/v2/x" [("a", "1")] []).1
      = (AxiosHttp.patch ⟨[], 0⟩ 1000 "/v2/x" [("a", "1")] []).1 := by
  decide

/-- Claim C9: evaluation of the code at the failing input.  On a transport
with one listener registered under Error and one under Connect, the error
handler installed by connect dispatches the incoming error on the Connect
bucket (transport.ts line 122), so the Connect listener is invoked and the
Error listener is not; the handler then calls end, which does invoke the
client end method for this non-guest transport, while end on a transport
whose client id is the guest sentinel never reaches the client. -/
theorem claim_C9_error_handler_dispatches_connect_bucket :
    (Transport.onClientError
        ⟨"CID-1", true, fun e =>
          if e = MqttEvent.Error then [1] else if e = MqttEvent.Connect then [2] else []⟩).1
      = [(MqttEvent.Connect, 2)] ∧
    (Transport.onClientError
        ⟨"CID-1", true, fun e =>
          if e = MqttEvent.Error then [1] else if e = MqttEvent.Connect then [2] else []⟩).2.2
      = true ∧
    Transport.endCallsClientEnd ⟨GUEST_CLIENT_ID, true, fun _ => []⟩ = false := by
  refine ⟨?_, ?_, ?_⟩ <;> decide

/-- Worker, reference-manager state and business for the claim C1 run. -/
def c1Business : Business := Business.create "log/detail" (some (BidValue.str "B1"))

def c1Worker : WorkerState String :=
  { id := "MqttServiceWorker_1", follows := [], followApiAwareness := []
    followMessages := [], followMessageDigest := [] }

def c1FirstWatch : WorkerState String × BRMState × List NotifyCall :=
  MqttServiceWorker.watch "CID" c1Worker ⟨[], []⟩ c1Business

def c1SecondWatch : WorkerState String × BRMState × List NotifyCall :=
  MqttServiceWorker.watch "CID" c1FirstWatch.1 c1FirstWatch.2.1 c1Business

/-- Claim C1: evaluation of the code at the failing input.  On a fresh
non-guest worker, the first watch of a business with bid B1 collects the
reference and issues the notify sub POST with the expected body, but the
api-awareness flag of the follow is still unset afterwards (watch never
writes true into the flag map), and a repeated watch of the same business on
the same worker is not a no-op: it runs collect again, driving the reference
count to two, though it issues no further POST. -/
theorem claim_C1_repeated_watch_is_not_a_noop :
    c1FirstWatch.2.2
      = [NotifyCall.sub ⟨BidValue.str "B1", "CID", "iot/v1/c/uuid/log/detail"⟩] ∧
    mapGet c1FirstWatch.1.followApiAwareness c1Business.id = none ∧
    BusinessReferenceManager.getReference c1FirstWatch.2.1 c1Business = 1 ∧
    BusinessReferenceManager.getReference c1SecondWatch.2.1 c1Business = 2 ∧
    c1SecondWatch.2.2 = [] := by
  refine ⟨?_, ?_, ?_, ?_, ?_⟩ <;> decide

/-- Claim C10: constructing a Business with an empty-string bid (or with no
bid at all) normalizes the bid to null: the identity is the subject followed
by a bare vertical bar, needsToLetApiKnowIAMInterested is false, and watch
and unwatch on any worker leave the reference manager untouched and issue no
interest-notification POST, exactly as for a null bid. -/
theorem claim_C10_empty_bid_behaves_like_null_bid :
    ∀ (α : Type) (s clientId : String) (w : WorkerState α) (brm : BRMState),
      Business.create s (some (BidValue.str "")) = Business.create s none ∧
      (Business.create s (some (BidValue.str ""))).bid = none ∧
      (Business.create s (some (BidValue.str ""))).id = s ++ "|" ∧
      (Business.create s (some (BidValue.str ""))).needsToLetApiKnowIAMInterested = false ∧
      (MqttServiceWorker.watch clientId w brm
          (Business.create s (some (BidValue.str "")))).2.2 = [] ∧
      (MqttServiceWorker.watch clientId w brm
          (Business.create s (some (BidValue.str "")))).2.1 = brm ∧
      (MqttServiceWorker.unwatch clientId w brm
          (Business.create s (some (BidValue.str "")))).2.2 = [] ∧
      (MqttServiceWorker.unwatch clientId w brm
          (Business.create s (some (BidValue.str "")))).2.1 = brm := by
  intro α s clientId w brm
  have hb : Business.create s (some (BidValue.str "")) = { subject := s, bid := none } := by
    simp [Business.create]
  have hn : Business.create s none = { subject := s, bid := none } := by
    simp [Business.create]
  have hid : ({ subject := s, bid := none } : Business).id = s ++ "|" := by
    simp [Business.id]
  refine ⟨hb.trans hn.symm, by rw [hb], by rw [hb]; exact hid, by rw [hb]; rfl, ?_, ?_, ?_, ?_⟩
  · rw [hb]
    by_cases hg : MqttServiceWorker.isGuest w
    · simp [MqttServiceWorker.watch, hg]
    · simp only [MqttServiceWorker.watch, hg, if_false, Bool.false_eq_true]
      split <;> rfl
  · rw [hb]
    by_cases hg : MqttServiceWorker.isGuest w
    · simp [MqttServiceWorker.watch, hg]
    · simp only [MqttServiceWorker.watch, hg, if_false, Bool.false_eq_true]
      split <;> rfl
  · rw [hb]
    by_cases hg : MqttServiceWorker.isGuest w
    · simp [MqttServiceWorker.unwatch, hg]
    · simp only [MqttServiceWorker.unwatch, hg, if_false, Bool.false_eq_true]
      split <;> rfl
  · rw [hb]
    by_cases hg : MqttServiceWorker.isGuest w
    · simp [MqttServiceWorker.unwatch, hg]
    · simp only [MqttServiceWorker.unwatch, hg, if_false, Bool.false_eq_true]
      split <;> rfl

theorem mapGet_foldl_mapSet {β : Type} (l : List String) (m : List (String × β))
    (v : β) (fid : String) :
    mapGet (l.foldl (fun acc j => mapSet acc j v) m) fid
      = if fid ∈ l then some v else mapGet m fid := by
  induction l generalizing m with
  | nil => simp
  | cons x xs ih =>
      simp only [List.foldl_cons]
      rw [ih]
      by_cases hx : fid ∈ xs
      · simp [hx]
      · by_cases hfx : x = fid
        · subst hfx
          simp [hx, mapGet_mapSet_self]
        · have hxf : fid ≠ x := fun h => hfx h.symm
          simp [hx, hfx, List.mem_cons, mapGet_mapSet_ne m x fid v hfx, hxf]

/-- Claim C3: for an incoming transport message, the digest of a follow is
invoked exactly once when the follow is watched and its subject maps to the
incoming topic (getTopic of the subject equals the topic) and never
otherwise, and an invoked digest stores the decoded payload as the latest
message under the identity of that follow; a follow whose subject does not
map to the topic keeps its previous latest message.  Quantifying the worker
covers every worker listening on the transport: each one runs this same
built-in listener on the message event. -/
theorem claim_C3_message_routing (α : Type) (parse : String → α) (clientId : String)
    (w : WorkerState α) (topic payload fid : String)
    (hnodup : w.followMessageDigest.Nodup) :
    (List.count fid (MqttServiceWorker.digestInvocations clientId w topic)
        = if fid ∈ w.followMessageDigest ∧
              MqttServiceWorker.isMyMessage clientId w fid topic = true
          then 1 else 0) ∧
    (fid ∈ w.followMessageDigest →
      MqttServiceWorker.isMyMessage clientId w fid topic = true →
      mapGet (MqttServiceWorker.onMessage parse clientId w topic payload).followMessages fid
        = some (parse payload)) ∧
    (MqttServiceWorker.isMyMessage clientId w fid topic = false →
      mapGet (MqttServiceWorker.onMessage parse clientId w topic payload).followMessages fid
        = mapGet w.followMessages fid) := by
  have hmeminv : fid ∈ MqttServiceWorker.digestInvocations clientId w topic ↔
      (fid ∈ w.followMessageDigest ∧
        MqttServiceWorker.isMyMessage clientId w fid topic = true) := by
    simp [MqttServiceWorker.digestInvocations, List.mem_filter]
  refine ⟨?_, ?_, ?_⟩
  · by_cases hp : MqttServiceWorker.isMyMessage clientId w fid topic = true
    · by_cases hm : fid ∈ w.followMessageDigest
      · rw [if_pos ⟨hm, hp⟩]
        have hnodupinv : (MqttServiceWorker.digestInvocations clientId w topic).Nodup :=
          List.Nodup.filter _ hnodup
        exact List.count_eq_one_of_mem hnodupinv (hmeminv.mpr ⟨hm, hp⟩)
      · rw [if_neg (fun hc => hm hc.1)]
        exact List.count_eq_zero_of_not_mem (fun hc => hm (hmeminv.mp hc).1)
    · rw [if_neg (fun hc => hp hc.2)]
      exact List.count_eq_zero_of_not_mem (fun hc => hp (hmeminv.mp hc).2)
  · intro hm hp
    simp only [MqttServiceWorker.onMessage]
    rw [mapGet_foldl_mapSet]
    rw [if_pos (hmeminv.mpr ⟨hm, hp⟩)]
  · intro hp
    simp only [MqttServiceWorker.onMessage]
    rw [mapGet_foldl_mapSet]
    rw [if_neg (fun hc => by rw [(hmeminv.mp hc).2] at hp; exact Bool.true_eq_false.mp hp)]

/-- Worker for the claim C3 witness: it watches the subject log/detail under
bid B1 and the subject layout/status under bid B2. -/
def c3Worker : WorkerState String :=
  { id := "MqttServiceWorker_2"
    follows :=
      [("log/detail|B1", { subject := "log/detail", bid := some (BidValue.str "B1") }),
       ("layout/status|B2", { subject := "layout/status", bid := some (BidValue.str "B2") })]
    followApiAwareness := []
    followMessages := [("layout/status|B2", "old")]
    followMessageDigest := ["log/detail|B1", "layout/status|B2"] }

/-- Witness for claim C3: a message on the topic of the subject log/detail
invokes that digest exactly once and stores the parsed payload under its
follow id, while the follow on layout/status is not invoked and keeps its
previous message. -/
theorem claim_C3_message_routing_witness :
    List.count "log/detail|B1"
        (MqttServiceWorker.digestInvocations "CID" c3Worker "iot/v1/c/CID/log/detail") = 1 ∧
    mapGet (MqttServiceWorker.onMessage (fun s => s) "CID" c3Worker
        "iot/v1/c/CID/log/detail" "p1").followMessages "log/detail|B1" = some "p1" ∧
    List.count "layout/status|B2"
        (MqttServiceWorker.digestInvocations "CID" c3Worker "iot/v1/c/CID/log/detail") = 0 ∧
    mapGet (MqttServiceWorker.onMessage (fun s => s) "CID" c3Worker
        "iot/v1/c/CID/log/detail" "p1").followMessages "layout/status|B2" = some "old" := by
  have h1 := claim_C3_message_routing String (fun s => s) "CID" c3Worker
    "iot/v1/c/CID/log/detail" "p1" "log/detail|B1" (by decide)
  have h2 := claim_C3_message_routing String (fun s => s) "CID" c3Worker
    "iot/v1/c/CID/log/detail" "p1" "layout/status|B2" (by decide)
  refine ⟨?_, ?_, ?_, ?_⟩
  · rw [h1.1]
    decide
  · exact h1.2.1 (by decide) (by decide)
  · rw [h2.1]
    decide
  · rw [h2.2.2 (by decide)]
    decide
